import Mathlib

/-!
Verification of the phugoid flight-path tracer (the `Lesson-1_Phugoid`
notebook).

The numeric core consists of three functions:

* `radius_of_curvature z zt C` — the local turning radius of the path;
* `rotate coords center angle mode` — planar rotation of a point about a
  center, with the sign on the z-component flipped because the z-axis
  points down (`rotateVec` is the same source function applied to the
  batched tuple-of-arrays form, every operation broadcasting
  element-wise);
* the marching loop of `plot_flight_path` (called `trace` here, after the
  spec's name for the coordinate-producing core) — a fixed-step loop that
  advances the glider one unit of arclength per step along the local
  osculating circle.

The main embedding models the floating-point arithmetic over `ℝ`
(idealized exact arithmetic); `x ** p` for the fractional exponents `1.5`
and `0.5` is `Real.rpow`.  A second model `EF` (extended floats: NaN, the
two signed infinities, and exact finite values) captures the IEEE
special-value semantics that the notebook relies on through
`numpy.seterr(all='ignore')`; it is used for the error-propagation claim.
`EF` has a single unsigned zero, matching the `+0` results numpy produces
at the inputs considered here.
-/

noncomputable section

/-- Model of `numpy.radians`: degrees to radians, `x * pi / 180`. -/
def radians (x : ℝ) : ℝ := x * (Real.pi / 180)

/-- Model of `radius_of_curvature(z, zt, C)`:
`return zt / (1 / 3 - C / 2 * (zt / z)**1.5)`. -/
def radius_of_curvature (z zt C : ℝ) : ℝ :=
  zt / (1 / 3 - C / 2 * (zt / z) ^ (1.5 : ℝ))

/-- Model of `rotate(coords, center=(0.0, 0.0), angle=0.0, mode='degrees')`
on a single point: if `mode == 'degrees'` the angle is first converted to
radians; then
`x_new = xc + (x - xc) * cos(angle) + (z - zc) * sin(angle)` and
`z_new = zc - (x - xc) * sin(angle) + (z - zc) * cos(angle)`. -/
def rotate (coords center : ℝ × ℝ) (angle : ℝ) (mode : String) : ℝ × ℝ :=
  let x := coords.1
  let z := coords.2
  let xc := center.1
  let zc := center.2
  let a := if mode == "degrees" then radians angle else angle
  (xc + (x - xc) * Real.cos a + (z - zc) * Real.sin a,
   zc - (x - xc) * Real.sin a + (z - zc) * Real.cos a)

/-- Model of the same `rotate` source lines applied to the batched form:
`coords` is a tuple of two equal-length arrays and every arithmetic
operation broadcasts element-wise (numpy semantics). -/
def rotateVec (coords : List ℝ × List ℝ) (center : ℝ × ℝ) (angle : ℝ)
    (mode : String) : List ℝ × List ℝ :=
  let xc := center.1
  let zc := center.2
  let a := if mode == "degrees" then radians angle else angle
  (List.zipWith (fun x z => xc + (x - xc) * Real.cos a + (z - zc) * Real.sin a)
      coords.1 coords.2,
   List.zipWith (fun x z => zc - (x - xc) * Real.sin a + (z - zc) * Real.cos a)
      coords.1 coords.2)

/-- Model of `ds = 1.0`: the fixed incremental distance along the flight
path, one unit of arclength per step. -/
def ds : ℝ := 1

/-- Model of the integration constant, computed once at initialization of
`plot_flight_path`:
`C = (numpy.cos(theta) - 1 / 3 * z[0] / zt) * (z[0] / zt)**0.5`
with `theta = numpy.radians(theta0)` and `z[0] = z0`. -/
def Cconst (zt z0 theta0 : ℝ) : ℝ :=
  (Real.cos (radians theta0) - 1 / 3 * z0 / zt) * (z0 / zt) ^ (0.5 : ℝ)

/-- Model of one iteration of the marching loop of `plot_flight_path`,
acting on the running state `(x[i-1], z[i-1], theta)`:
`normal = [+cos(theta + pi/2), -sin(theta + pi/2)]`;
`R = radius_of_curvature(z[i-1], zt, C)`; `center = [x, z] + R * normal`;
`dtheta = ds / R`; the new point is
`rotate((x, z), center=center, angle=dtheta, mode='radians')`; finally
`theta += dtheta`. -/
def traceStep (zt C : ℝ) (s : ℝ × ℝ × ℝ) : ℝ × ℝ × ℝ :=
  let x := s.1
  let z := s.2.1
  let theta := s.2.2
  let normal : ℝ × ℝ :=
    (Real.cos (theta + Real.pi / 2), -Real.sin (theta + Real.pi / 2))
  let R := radius_of_curvature z zt C
  let center : ℝ × ℝ := (x + R * normal.1, z + R * normal.2)
  let dtheta := ds / R
  let p := rotate (x, z) center dtheta ("radians")
  (p.1, p.2, theta + dtheta)

/-- Running state after `i` iterations of the marching loop; the state at
0 is the initial condition `x[0], z[0], theta = 0.0, z0, theta0` (with
`theta0` already converted to radians, as done at the top of
`plot_flight_path`). -/
def traceState (zt z0 theta0 : ℝ) : ℕ → ℝ × ℝ × ℝ
  | 0 => (0, z0, radians theta0)
  | n + 1 => traceStep zt (Cconst zt z0 theta0) (traceState zt z0 theta0 n)

/-- Model of the coordinate-producing core of `plot_flight_path` (the
spec's `trace`): the length-N arrays `x` and `z` filled by the marching
loop, entry `i` holding the position after `i` steps. -/
def trace (zt z0 theta0 : ℝ) (N : ℕ) : List ℝ × List ℝ :=
  ((List.range N).map fun i => (traceState zt z0 theta0 i).1,
   (List.range N).map fun i => (traceState zt z0 theta0 i).2.1)

/-- Extended floats: the value space of IEEE doubles with exact finite
values — NaN, the two signed infinities (`inf true` is positive), and
finite reals.  Rounding is not modelled; special-value propagation is. -/
inductive EF where
  | nan : EF
  | inf : Bool → EF
  | fin : ℝ → EF

namespace EF

/-- IEEE addition on extended floats: NaN propagates; opposite infinities
give NaN; an infinity absorbs finite values. -/
def add : EF → EF → EF
  | nan, _ => nan
  | _, nan => nan
  | inf s, inf t => if s = t then inf s else nan
  | inf s, fin _ => inf s
  | fin _, inf t => inf t
  | fin a, fin b => fin (a + b)

/-- IEEE negation on extended floats. -/
def neg : EF → EF
  | nan => nan
  | inf s => inf (!s)
  | fin a => fin (-a)

/-- IEEE subtraction on extended floats. -/
def sub (x y : EF) : EF := add x (neg y)

/-- IEEE multiplication on extended floats: NaN propagates; infinity
times zero is NaN; signs combine. -/
def mul : EF → EF → EF
  | nan, _ => nan
  | _, nan => nan
  | inf s, inf t => inf (s == t)
  | inf s, fin a => if a = 0 then nan else inf (s == decide (0 < a))
  | fin a, inf t => if a = 0 then nan else inf (t == decide (0 < a))
  | fin a, fin b => fin (a * b)

/-- IEEE division on extended floats: NaN propagates; `inf / inf` and
`0 / 0` are NaN; a nonzero finite value divided by zero is a signed
infinity; a finite value divided by an infinity is zero. -/
def div : EF → EF → EF
  | nan, _ => nan
  | _, nan => nan
  | inf _, inf _ => nan
  | inf s, fin a => if a = 0 then inf s else inf (s == decide (0 < a))
  | fin _, inf _ => fin 0
  | fin a, fin b =>
      if b = 0 then (if a = 0 then nan else inf (decide (0 < a)))
      else fin (a / b)

/-- IEEE cosine: NaN on NaN and on the infinities. -/
def cos : EF → EF
  | fin a => fin (Real.cos a)
  | _ => nan

/-- IEEE sine: NaN on NaN and on the infinities. -/
def sin : EF → EF
  | fin a => fin (Real.sin a)
  | _ => nan

/-- IEEE power with a fixed positive non-integer exponent (the source
only uses `**1.5` and `**0.5`): NaN propagates; both infinities give
positive infinity; a negative finite base gives NaN (the numpy result for
a fractional power of a negative float). -/
def powp (y : ℝ) : EF → EF
  | nan => nan
  | inf _ => inf true
  | fin a => if a < 0 then nan else fin (a ^ y)

/-- Model of `numpy.radians` on extended floats. -/
def radians (x : EF) : EF := mul x (fin (Real.pi / 180))

/-- Model of `radius_of_curvature` evaluated in IEEE float semantics. -/
def radius_of_curvature (z zt C : EF) : EF :=
  div zt (sub (fin (1 / 3)) (mul (div C (fin 2)) (powp (1.5 : ℝ) (div zt z))))

/-- Model of `rotate` on a single point, evaluated in IEEE float
semantics. -/
def rotate (coords center : EF × EF) (angle : EF) (mode : String) : EF × EF :=
  let x := coords.1
  let z := coords.2
  let xc := center.1
  let zc := center.2
  let a := if mode == "degrees" then radians angle else angle
  (add (add xc (mul (sub x xc) (cos a))) (mul (sub z zc) (sin a)),
   add (sub zc (mul (sub x xc) (sin a))) (mul (sub z zc) (cos a)))

/-- Model of the integration constant of `plot_flight_path`, evaluated in
IEEE float semantics. -/
def Cconst (zt z0 theta0 : EF) : EF :=
  mul (sub (cos (radians theta0)) (div (mul (fin (1 / 3)) z0) zt))
    (powp (0.5 : ℝ) (div z0 zt))

/-- Model of one marching iteration of `plot_flight_path`, evaluated in
IEEE float semantics. -/
def traceStep (zt C : EF) (s : EF × EF × EF) : EF × EF × EF :=
  let x := s.1
  let z := s.2.1
  let theta := s.2.2
  let normal : EF × EF :=
    (cos (add theta (fin (Real.pi / 2))),
     neg (sin (add theta (fin (Real.pi / 2)))))
  let R := radius_of_curvature z zt C
  let center : EF × EF := (add x (mul R normal.1), add z (mul R normal.2))
  let dtheta := div (fin ds) R
  let p := rotate (x, z) center dtheta ("radians")
  (p.1, p.2, add theta dtheta)

/-- Running state of the marching loop in IEEE float semantics. -/
def traceState (zt z0 theta0 : EF) : ℕ → EF × EF × EF
  | 0 => (fin 0, z0, radians theta0)
  | n + 1 => traceStep zt (Cconst zt z0 theta0) (traceState zt z0 theta0 n)

/-- The coordinate-producing core of `plot_flight_path` in IEEE float
semantics. -/
def trace (zt z0 theta0 : EF) (N : ℕ) : List EF × List EF :=
  ((List.range N).map fun i => (traceState zt z0 theta0 i).1,
   (List.range N).map fun i => (traceState zt z0 theta0 i).2.1)

end EF

end

noncomputable section

namespace EF

theorem add_nan (x : EF) : add x nan = nan := by cases x <;> rfl

theorem nan_add (x : EF) : add nan x = nan := by cases x <;> rfl

theorem mul_nan (x : EF) : mul x nan = nan := by cases x <;> rfl

theorem nan_mul (x : EF) : mul nan x = nan := by cases x <;> rfl

theorem div_nan (x : EF) : div x nan = nan := by cases x <;> rfl

theorem nan_div (x : EF) : div nan x = nan := by cases x <;> rfl

theorem neg_nan : neg nan = nan := rfl

theorem sub_nan (x : EF) : sub x nan = nan := by cases x <;> rfl

theorem nan_sub (x : EF) : sub nan x = nan := by cases x <;> rfl

theorem cos_nan : cos nan = nan := rfl

theorem sin_nan : sin nan = nan := rfl

theorem powp_nan (y : ℝ) : powp y nan = nan := rfl

end EF

theorem mode_angle_zero (m : String) :
    (if m == "degrees" then radians 0 else 0) = 0 := by
  split <;> simp [radians]

theorem zip_id_aux (xc zc : ℝ) (xs zs : List ℝ) (h : xs.length = zs.length) :
    List.zipWith (fun x z => xc + (x - xc) * Real.cos 0 + (z - zc) * Real.sin 0)
        xs zs = xs ∧
    List.zipWith (fun x z => zc - (x - xc) * Real.sin 0 + (z - zc) * Real.cos 0)
        xs zs = zs := by
  induction xs generalizing zs with
  | nil =>
    cases zs with
    | nil => simp
    | cons b bs => simp at h
  | cons a as ih =>
    cases zs with
    | nil => simp at h
    | cons b bs =>
      simp only [List.length_cons, Nat.succ.injEq] at h
      obtain ⟨h1, h2⟩ := ih bs h
      simp only [List.zipWith_cons_cons, h1, h2]
      constructor <;> (congr 1 ; simp)

theorem rotate_sq_dist_aux (x z xc zc b : ℝ) :
    ((xc + (x - xc) * Real.cos b + (z - zc) * Real.sin b) - xc) ^ 2 +
      ((zc - (x - xc) * Real.sin b + (z - zc) * Real.cos b) - zc) ^ 2 =
      (x - xc) ^ 2 + (z - zc) ^ 2 := by
  linear_combination ((x - xc) ^ 2 + (z - zc) ^ 2) * Real.sin_sq_add_cos_sq b

theorem rotate_sq_dist (x z xc zc a : ℝ) (m : String) :
    ((rotate (x, z) (xc, zc) a m).1 - xc) ^ 2 +
      ((rotate (x, z) (xc, zc) a m).2 - zc) ^ 2 =
      (x - xc) ^ 2 + (z - zc) ^ 2 := by
  simp only [rotate]
  exact rotate_sq_dist_aux x z xc zc _

/-- C1: for every positive `zt`, positive `z0`, any `theta0` (degrees) and
`N ≥ 2`, `trace` returns a pair of sequences each of exactly `N` entries,
and the first point equals `(0, z0)` exactly. -/
theorem trace_length_and_first_point (zt z0 theta0 : ℝ) (N : ℕ)
    (hzt : 0 < zt) (hz0 : 0 < z0) (hN : 2 ≤ N) :
    (trace zt z0 theta0 N).1.length = N ∧
    (trace zt z0 theta0 N).2.length = N ∧
    (trace zt z0 theta0 N).1[0]? = some 0 ∧
    (trace zt z0 theta0 N).2[0]? = some z0 := by
  have h0 : 0 < N := by omega
  refine ⟨by simp [trace], by simp [trace], ?_, ?_⟩ <;>
    simp [trace, List.getElem?_range, h0, traceState]

theorem trace_length_and_first_point_witness :
    (trace 1 1 0 2).1.length = 2 ∧ (trace 1 1 0 2).2.length = 2 ∧
    (trace 1 1 0 2).1[0]? = some 0 ∧ (trace 1 1 0 2).2[0]? = some 1 :=
  trace_length_and_first_point 1 1 0 2 (by norm_num) (by norm_num)
    (by norm_num)

/-- C2: for every `i` from 1 to `N-1`, the marching step computes the new
point from the previous state `(x[i-1], z[i-1], theta)` exactly by:
normal `(cos(theta + pi/2), -sin(theta + pi/2))`;
`R = radius_of_curvature(z[i-1], zt, C)`; rotation center = previous
point + `R` * normal; `dtheta = ds / R` with `ds = 1`; new point =
`rotate(previous point, center, dtheta, radians)`; then `theta` is
incremented by `dtheta`. -/
theorem trace_step_recurrence (zt z0 theta0 : ℝ) (N i : ℕ) (px pz th : ℝ)
    (h1 : 1 ≤ i) (h2 : i < N)
    (h : traceState zt z0 theta0 (i - 1) = (px, pz, th)) :
    (trace zt z0 theta0 N).1[i]? =
      some (traceStep zt (Cconst zt z0 theta0) (px, pz, th)).1 ∧
    (trace zt z0 theta0 N).2[i]? =
      some (traceStep zt (Cconst zt z0 theta0) (px, pz, th)).2.1 ∧
    traceStep zt (Cconst zt z0 theta0) (px, pz, th) =
      ((rotate (px, pz)
          (px + radius_of_curvature pz zt (Cconst zt z0 theta0) *
              Real.cos (th + Real.pi / 2),
           pz + radius_of_curvature pz zt (Cconst zt z0 theta0) *
              -Real.sin (th + Real.pi / 2))
          (ds / radius_of_curvature pz zt (Cconst zt z0 theta0))
          ("radians")).1,
       (rotate (px, pz)
          (px + radius_of_curvature pz zt (Cconst zt z0 theta0) *
              Real.cos (th + Real.pi / 2),
           pz + radius_of_curvature pz zt (Cconst zt z0 theta0) *
              -Real.sin (th + Real.pi / 2))
          (ds / radius_of_curvature pz zt (Cconst zt z0 theta0))
          ("radians")).2,
       th + ds / radius_of_curvature pz zt (Cconst zt z0 theta0)) := by
  obtain ⟨j, rfl⟩ : ∃ j, i = j + 1 := ⟨i - 1, by omega⟩
  simp only [Nat.add_sub_cancel] at h
  have hstate : traceState zt z0 theta0 (j + 1) =
      traceStep zt (Cconst zt z0 theta0) (px, pz, th) := by
    rw [← h]
    rfl
  refine ⟨?_, ?_, rfl⟩
  · rw [show (trace zt z0 theta0 N).1[j + 1]? =
        some (traceState zt z0 theta0 (j + 1)).1 by
      simp [trace, List.getElem?_range, h2], hstate]
  · rw [show (trace zt z0 theta0 N).2[j + 1]? =
        some (traceState zt z0 theta0 (j + 1)).2.1 by
      simp [trace, List.getElem?_range, h2], hstate]

theorem trace_step_recurrence_witness :
    (trace 1 2 0 2).1[1]? =
      some (traceStep 1 (Cconst 1 2 0) (0, 2, radians 0)).1 :=
  (trace_step_recurrence 1 2 0 2 1 0 2 (radians 0) (by norm_num)
    (by norm_num) rfl).1

/-- C3: for all scalars `z`, `zt`, `C` with `z` nonzero,
`radius_of_curvature(z, zt, C)` equals
`zt / (1/3 - (C/2) * (zt/z)^1.5)`. -/
theorem radius_of_curvature_formula (z zt C : ℝ) (h : z ≠ 0) :
    radius_of_curvature z zt C =
      zt / (1 / 3 - C / 2 * (zt / z) ^ (1.5 : ℝ)) := rfl

theorem radius_of_curvature_formula_witness :
    radius_of_curvature 1 2 3 =
      2 / (1 / 3 - 3 / 2 * (2 / 1) ^ (1.5 : ℝ)) :=
  radius_of_curvature_formula 1 2 3 (by norm_num)

/-- C5: for every point, center and angle, `rotate` returns
`x' = xc + (x-xc)*cos(a) + (z-zc)*sin(a)` and
`z' = zc - (x-xc)*sin(a) + (z-zc)*cos(a)`, where `a` is the angle
converted from degrees to radians when the mode selects degrees, and the
angle unchanged when the mode selects radians. -/
theorem rotate_mode_formulas (x z xc zc a : ℝ) :
    rotate (x, z) (xc, zc) a ("degrees") =
      (xc + (x - xc) * Real.cos (radians a) + (z - zc) * Real.sin (radians a),
       zc - (x - xc) * Real.sin (radians a) + (z - zc) * Real.cos (radians a)) ∧
    rotate (x, z) (xc, zc) a ("radians") =
      (xc + (x - xc) * Real.cos a + (z - zc) * Real.sin a,
       zc - (x - xc) * Real.sin a + (z - zc) * Real.cos a) := by
  constructor <;> simp [rotate]

/-- C6: in the IEEE special-value model, `trace` is total: for every
input — including degenerate ones — it produces the full pair of length-N
sequences; a NaN depth at any state makes the whole next state NaN
(silent propagation through the remaining steps); and the concrete
degenerate input `zt = 1, z0 = -1, theta0 = 0, N = 3` (which forces
`zt/z < 0` at the first step) yields NaN in every subsequent entry while
still producing all N points. -/
theorem EF_trace_total_and_nan_propagation :
    (∀ (zt z0 theta0 : EF) (N : ℕ),
      (EF.trace zt z0 theta0 N).1.length = N ∧
      (EF.trace zt z0 theta0 N).2.length = N) ∧
    (∀ zt C x theta : EF,
      EF.traceStep zt C (x, EF.nan, theta) = (EF.nan, EF.nan, EF.nan)) ∧
    ((EF.trace (EF.fin 1) (EF.fin (-1)) (EF.fin 0) 3).2[1]? = some EF.nan ∧
     (EF.trace (EF.fin 1) (EF.fin (-1)) (EF.fin 0) 3).2[2]? = some EF.nan ∧
     (EF.trace (EF.fin 1) (EF.fin (-1)) (EF.fin 0) 3).1.length = 3) := by
  refine ⟨fun zt z0 theta0 N => ⟨by simp [EF.trace], by simp [EF.trace]⟩,
    ?_, ?_, ?_, by simp [EF.trace]⟩
  · intro zt C x theta
    simp [EF.traceStep, EF.rotate, EF.radius_of_curvature, EF.add_nan,
      EF.nan_add, EF.mul_nan, EF.nan_mul, EF.div_nan, EF.nan_div, EF.sub_nan,
      EF.nan_sub, EF.cos_nan, EF.sin_nan, EF.powp_nan]
  · norm_num [EF.trace, EF.traceState, EF.traceStep, EF.rotate,
      EF.radius_of_curvature, EF.Cconst, EF.radians, EF.add, EF.neg, EF.sub,
      EF.mul, EF.div, EF.cos, EF.sin, EF.powp, ds, List.getElem?_range,
      List.getElem?_map]
  · norm_num [EF.trace, EF.traceState, EF.traceStep, EF.rotate,
      EF.radius_of_curvature, EF.Cconst, EF.radians, EF.add, EF.neg, EF.sub,
      EF.mul, EF.div, EF.cos, EF.sin, EF.powp, ds, List.getElem?_range,
      List.getElem?_map]

/-- C7: `rotate` with angle 0 is the identity, for any center and either
angle mode, both on a single point and on a batch of points (tuple of two
equal-length arrays). -/
theorem rotate_zero_identity (x z xc zc : ℝ) (m : String) (xs zs : List ℝ)
    (h : xs.length = zs.length) :
    rotate (x, z) (xc, zc) 0 m = (x, z) ∧
    rotateVec (xs, zs) (xc, zc) 0 m = (xs, zs) := by
  constructor
  · simp only [rotate, mode_angle_zero, Real.cos_zero, Real.sin_zero,
      Prod.mk.injEq]
    constructor <;> ring
  · simp only [rotateVec, mode_angle_zero]
    obtain ⟨h1, h2⟩ := zip_id_aux xc zc xs zs h
    rw [h1, h2]

theorem rotate_zero_identity_witness :
    rotate (1, 2) (5, 6) 0 ("degrees") = (1, 2) ∧
    rotateVec ([1, 2], [3, 4]) (5, 6) 0 ("degrees") = ([1, 2], [3, 4]) :=
  rotate_zero_identity 1 2 5 6 "degrees" [1, 2] [3, 4] rfl

/-- C8: for every `z`, `radius_of_curvature(z, z, 0)` equals exactly
`z / (1/3) = 3z`. -/
theorem radius_of_curvature_trim (z : ℝ) :
    radius_of_curvature z z 0 = 3 * z := by
  unfold radius_of_curvature
  norm_num
  ring

/-- C9 (implicit): `rotate` is an isometry about its center — in exact
arithmetic the Euclidean distance of the output from the center equals
that of the input, for every point, center, angle and mode — and
consequently each marching step places the new point on the circle of
radius `|R|` about that step's rotation center. -/
theorem rotate_isometry_step_circle (x z xc zc a : ℝ) (m : String)
    (zt z0 theta0 : ℝ) (j : ℕ) :
    Real.sqrt (((rotate (x, z) (xc, zc) a m).1 - xc) ^ 2 +
        ((rotate (x, z) (xc, zc) a m).2 - zc) ^ 2) =
      Real.sqrt ((x - xc) ^ 2 + (z - zc) ^ 2) ∧
    Real.sqrt
        (((traceState zt z0 theta0 (j + 1)).1 -
            ((traceState zt z0 theta0 j).1 +
              radius_of_curvature (traceState zt z0 theta0 j).2.1 zt
                  (Cconst zt z0 theta0) *
                Real.cos ((traceState zt z0 theta0 j).2.2 + Real.pi / 2))) ^ 2 +
          ((traceState zt z0 theta0 (j + 1)).2.1 -
            ((traceState zt z0 theta0 j).2.1 +
              radius_of_curvature (traceState zt z0 theta0 j).2.1 zt
                  (Cconst zt z0 theta0) *
                -Real.sin ((traceState zt z0 theta0 j).2.2 + Real.pi / 2))) ^ 2) =
      |radius_of_curvature (traceState zt z0 theta0 j).2.1 zt
          (Cconst zt z0 theta0)| := by
  constructor
  · exact congrArg Real.sqrt (rotate_sq_dist x z xc zc a m)
  · rcases h : traceState zt z0 theta0 j with ⟨px, pz, th⟩
    have hstep : traceState zt z0 theta0 (j + 1) =
        traceStep zt (Cconst zt z0 theta0) (px, pz, th) := by
      rw [← h]
      rfl
    rw [hstep]
    simp only [traceStep]
    rw [rotate_sq_dist]
    have hsq :
        (px - (px + radius_of_curvature pz zt (Cconst zt z0 theta0) *
            Real.cos (th + Real.pi / 2))) ^ 2 +
          (pz - (pz + radius_of_curvature pz zt (Cconst zt z0 theta0) *
            -Real.sin (th + Real.pi / 2))) ^ 2 =
          (radius_of_curvature pz zt (Cconst zt z0 theta0)) ^ 2 := by
      linear_combination (radius_of_curvature pz zt (Cconst zt z0 theta0)) ^ 2 *
        Real.sin_sq_add_cos_sq (th + Real.pi / 2)
    rw [hsq, Real.sqrt_sq_eq_abs]

/-- C10 (implicit): `rotate` performs no validation of its mode argument —
for every mode string different from exactly `'degrees'` the angle is
silently interpreted as radians. -/
theorem rotate_mode_fallback (coords center : ℝ × ℝ) (angle : ℝ)
    (m : String) (h : m ≠ "degrees") :
    rotate coords center angle m = rotate coords center angle ("radians") := by
  have hb : (m == "degrees") = false := beq_eq_false_iff_ne.mpr h
  simp [rotate, hb]

theorem rotate_mode_fallback_witness :
    rotate (1, 2) (3, 4) 5 ("Degrees") = rotate (1, 2) (3, 4) 5 ("radians") :=
  rotate_mode_fallback (1, 2) (3, 4) 5 ("Degrees") (by decide)

end
